import Mathlib

/-!
Shallow embedding of the feedback-backend application core:
the data model of `app/models.py` and the request handlers of
`app/routers/feedback.py` and `app/routers/users.py`.

The relational store is modelled as lists of records; SQLAlchemy's
`query(...).filter(...).first()` becomes `List.find?`, `.all()` becomes
`List.filter`, `.count()` becomes `List.length` of a filter, and mutating
the ORM object returned by `.first()` followed by `commit()` becomes
replacing the first matching element of the list (`updateFirst`).
Timestamps (`datetime.utcnow()`) are modelled as natural numbers passed
explicitly; autoincremented primary keys are passed as explicit fresh ids.
HTTP error responses are an explicit error type.
-/

namespace FeedbackApp

/-- Roles of `UserRole` in app/models.py. -/
inductive UserRole where
  | admin
  | manager
  | employee
  deriving DecidableEq, Repr

/-- Sentiments of `SentimentType` in app/models.py. -/
inductive SentimentType where
  | positive
  | neutral
  | negative
  deriving DecidableEq, Repr

/-- HTTP error outcomes raised by the handlers (403 / 404 / 400). -/
inductive ApiError where
  | forbidden
  | notFound
  | badRequest
  deriving DecidableEq, Repr

/-- A row of the `users` table (columns relevant to the handlers). -/
structure User where
  id : Nat
  email : String
  full_name : String
  role : UserRole
  manager_id : Option Nat
  is_active : Bool
  deriving DecidableEq, Repr

/-- A row of the `feedback` table. -/
structure Feedback where
  id : Nat
  manager_id : Nat
  employee_id : Nat
  strengths : String
  areas_to_improve : String
  overall_sentiment : SentimentType
  acknowledged : Bool
  acknowledged_at : Option Nat
  created_at : Nat
  deriving DecidableEq, Repr

/-- A row of the `feedback_requests` table; `status` is a string column
taking values "pending", "completed", "cancelled". -/
structure FeedbackRequest where
  id : Nat
  employee_id : Nat
  manager_id : Nat
  message : Option String
  status : String
  created_at : Nat
  completed_at : Option Nat
  deriving DecidableEq, Repr

/-- The relational store: the three tables the handlers touch. -/
structure DB where
  users : List User
  feedbacks : List Feedback
  requests : List FeedbackRequest
  deriving DecidableEq, Repr

/-- Body of `FeedbackCreate` in app/schemas.py. -/
structure FeedbackCreate where
  employee_id : Nat
  strengths : String
  areas_to_improve : String
  overall_sentiment : SentimentType
  deriving DecidableEq, Repr

/-- Body of `FeedbackUpdate` in app/schemas.py: every field optional,
`none` meaning the field was not supplied (pydantic `exclude_unset`). -/
structure FeedbackUpdate where
  strengths : Option String
  areas_to_improve : Option String
  overall_sentiment : Option SentimentType
  deriving DecidableEq, Repr

/-- Body of `UserUpdate` in app/schemas.py: every field optional,
`none` meaning the field was not supplied (pydantic `exclude_unset`). -/
structure UserUpdate where
  email : Option String
  full_name : Option String
  manager_id : Option Nat
  deriving DecidableEq, Repr

/-- Body of `DashboardStats` in app/schemas.py. -/
structure DashboardStats where
  total_feedback : Nat
  positive_feedback : Nat
  neutral_feedback : Nat
  negative_feedback : Nat
  team_members_count : Nat
  deriving DecidableEq, Repr

/-- Body of `FeedbackSummary` in app/schemas.py. -/
structure FeedbackSummary where
  feedback : List Feedback
  stats : DashboardStats
  deriving DecidableEq, Repr

/-- Replace the first element satisfying `p` by its image under `g`:
the effect of mutating the ORM object returned by `.first()` and committing. -/
def updateFirst (p : α → Bool) (g : α → α) : List α → List α
  | [] => []
  | x :: xs => if p x then g x :: xs else x :: updateFirst p g xs

/-- Handler `create_feedback` (POST /api/feedback/), feedback.py lines 23-59. -/
def create_feedback (db : DB) (current_user : User) (feedback_data : FeedbackCreate)
    (newId now : Nat) : Except ApiError (DB × Feedback) :=
  if current_user.role ≠ UserRole.manager then
    .error .forbidden
  else
    match db.users.find? (fun u => u.id == feedback_data.employee_id) with
    | none => .error .notFound
    | some employee =>
      if employee.manager_id ≠ some current_user.id then
        .error .forbidden
      else
        let db_feedback : Feedback :=
          { id := newId
            manager_id := current_user.id
            employee_id := feedback_data.employee_id
            strengths := feedback_data.strengths
            areas_to_improve := feedback_data.areas_to_improve
            overall_sentiment := feedback_data.overall_sentiment
            acknowledged := false
            acknowledged_at := none
            created_at := now }
        .ok ({ db with feedbacks := db.feedbacks ++ [db_feedback] }, db_feedback)

/-- Handler `get_feedback` (GET /api/feedback/), feedback.py lines 61-73. -/
def get_feedback (db : DB) (current_user : User) : List Feedback :=
  if current_user.role = UserRole.manager then
    db.feedbacks.filter (fun f => f.manager_id == current_user.id)
  else
    db.feedbacks.filter (fun f => f.employee_id == current_user.id)

/-- Handler `get_dashboard_data` (GET /api/feedback/dashboard),
feedback.py lines 75-103. -/
def get_dashboard_data (db : DB) (current_user : User) : FeedbackSummary :=
  let feedback :=
    if current_user.role = UserRole.manager then
      db.feedbacks.filter (fun f => f.manager_id == current_user.id)
    else
      db.feedbacks.filter (fun f => f.employee_id == current_user.id)
  let team_members_count :=
    if current_user.role = UserRole.manager then
      (db.users.filter (fun u => u.manager_id == some current_user.id)).length
    else 0
  { feedback := feedback
    stats :=
      { total_feedback := feedback.length
        positive_feedback :=
          (feedback.filter (fun f => f.overall_sentiment == SentimentType.positive)).length
        neutral_feedback :=
          (feedback.filter (fun f => f.overall_sentiment == SentimentType.neutral)).length
        negative_feedback :=
          (feedback.filter (fun f => f.overall_sentiment == SentimentType.negative)).length
        team_members_count := team_members_count } }

/-- Apply the supplied fields of a `FeedbackUpdate` to a feedback row
(the `for field, value in feedback_update.dict(exclude_unset=True)` loop). -/
def applyFeedbackUpdate (u : FeedbackUpdate) (f : Feedback) : Feedback :=
  { f with
    strengths := u.strengths.getD f.strengths
    areas_to_improve := u.areas_to_improve.getD f.areas_to_improve
    overall_sentiment := u.overall_sentiment.getD f.overall_sentiment }

/-- Handler `update_feedback` (PUT /api/feedback/{id}), feedback.py lines 105-130. -/
def update_feedback (db : DB) (current_user : User) (feedback_id : Nat)
    (feedback_update : FeedbackUpdate) : Except ApiError DB :=
  match db.feedbacks.find? (fun f => f.id == feedback_id) with
  | none => .error .notFound
  | some feedback =>
    if feedback.manager_id ≠ current_user.id then
      .error .forbidden
    else
      .ok { db with
            feedbacks := updateFirst (fun f => f.id == feedback_id)
              (applyFeedbackUpdate feedback_update) db.feedbacks }

/-- Handler `acknowledge_feedback` (POST /api/feedback/{id}/acknowledge),
feedback.py lines 132-155. -/
def acknowledge_feedback (db : DB) (current_user : User) (feedback_id now : Nat) :
    Except ApiError DB :=
  match db.feedbacks.find? (fun f => f.id == feedback_id) with
  | none => .error .notFound
  | some feedback =>
    if feedback.employee_id ≠ current_user.id then
      .error .forbidden
    else
      .ok { db with
            feedbacks := updateFirst (fun f => f.id == feedback_id)
              (fun f => { f with acknowledged := true, acknowledged_at := some now })
              db.feedbacks }

/-- The duplicate-pending-request filter of `create_feedback_request`. -/
def pendingPair (e m : Nat) (r : FeedbackRequest) : Bool :=
  r.employee_id == e && r.manager_id == m && r.status == "pending"

/-- Handler `create_feedback_request` (POST /api/feedback/request),
feedback.py lines 158-200.  Python's `if not current_user.manager_id`
treats both `None` and `0` as falsy. -/
def create_feedback_request (db : DB) (current_user : User) (message : Option String)
    (newId now : Nat) : Except ApiError (DB × FeedbackRequest) :=
  if current_user.role ≠ UserRole.employee then
    .error .forbidden
  else
    match current_user.manager_id with
    | none => .error .badRequest
    | some m =>
      if m = 0 then .error .badRequest
      else if (db.requests.find? (pendingPair current_user.id m)).isSome then
        .error .badRequest
      else
        let feedback_request : FeedbackRequest :=
          { id := newId
            employee_id := current_user.id
            manager_id := m
            message := message
            status := "pending"
            created_at := now
            completed_at := none }
        .ok ({ db with requests := db.requests ++ [feedback_request] }, feedback_request)

/-- Handler `get_feedback_requests` (GET /api/feedback/requests),
feedback.py lines 202-218. -/
def get_feedback_requests (db : DB) (current_user : User) : List FeedbackRequest :=
  if current_user.role = UserRole.manager then
    db.requests.filter (fun r => r.manager_id == current_user.id)
  else
    db.requests.filter (fun r => r.employee_id == current_user.id)

/-- Handler `complete_feedback_request` (POST /api/feedback/requests/{id}/complete),
feedback.py lines 220-243. -/
def complete_feedback_request (db : DB) (current_user : User) (request_id now : Nat) :
    Except ApiError DB :=
  match db.requests.find? (fun r => r.id == request_id) with
  | none => .error .notFound
  | some feedback_request =>
    if feedback_request.manager_id ≠ current_user.id then
      .error .forbidden
    else
      .ok { db with
            requests := updateFirst (fun r => r.id == request_id)
              (fun r => { r with status := "completed", completed_at := some now })
              db.requests }

/-- Handler `cancel_feedback_request` (DELETE /api/feedback/requests/{id}),
feedback.py lines 245-268. -/
def cancel_feedback_request (db : DB) (current_user : User) (request_id : Nat) :
    Except ApiError DB :=
  match db.requests.find? (fun r => r.id == request_id) with
  | none => .error .notFound
  | some feedback_request =>
    if feedback_request.employee_id ≠ current_user.id ∧
        feedback_request.manager_id ≠ current_user.id then
      .error .forbidden
    else
      .ok { db with
            requests := updateFirst (fun r => r.id == request_id)
              (fun r => { r with status := "cancelled" })
              db.requests }

/-- Apply the supplied fields of a `UserUpdate` to a user row
(the `for field, value in user_update.dict(exclude_unset=True)` loop). -/
def applyUserUpdate (u : UserUpdate) (usr : User) : User :=
  { usr with
    email := u.email.getD usr.email
    full_name := u.full_name.getD usr.full_name
    manager_id := match u.manager_id with
      | none => usr.manager_id
      | some m => some m }

/-- Handler `update_current_user` (PUT /api/users/me), users.py lines 34-45:
applies the supplied fields to the caller's own row and returns the
refreshed record. -/
def update_current_user (db : DB) (current_user : User) (user_update : UserUpdate) :
    DB × User :=
  let db' : DB :=
    { db with
      users := updateFirst (fun u => u.id == current_user.id)
        (applyUserUpdate user_update) db.users }
  (db', applyUserUpdate user_update current_user)

/-! Concrete sample data used to exercise the handlers. -/

/-- Sample manager (id 1). -/
def mgrW : User :=
  { id := 1, email := "m@example.com", full_name := "M",
    role := UserRole.manager, manager_id := none, is_active := true }

/-- Sample employee (id 2) reporting to user 1. -/
def empW : User :=
  { id := 2, email := "e@example.com", full_name := "E",
    role := UserRole.employee, manager_id := some 1, is_active := true }

/-- Sample second employee (id 3) with no manager. -/
def empW2 : User :=
  { id := 3, email := "e2@example.com", full_name := "E2",
    role := UserRole.employee, manager_id := none, is_active := true }

/-- Sample admin (id 9). -/
def admW : User :=
  { id := 9, email := "a@example.com", full_name := "A",
    role := UserRole.admin, manager_id := none, is_active := true }

/-- Store holding just the manager and the employee. -/
def dbW : DB := { users := [mgrW, empW], feedbacks := [], requests := [] }

/-- Sample feedback-creation body targeting employee 2. -/
def fcW : FeedbackCreate :=
  { employee_id := 2, strengths := "s", areas_to_improve := "a",
    overall_sentiment := SentimentType.positive }

/-- The feedback row `create_feedback dbW mgrW fcW 1 0` persists. -/
def fbC1 : Feedback :=
  { id := 1, manager_id := 1, employee_id := 2, strengths := "s",
    areas_to_improve := "a", overall_sentiment := SentimentType.positive,
    acknowledged := false, acknowledged_at := none, created_at := 0 }

/-- The store after `create_feedback dbW mgrW fcW 1 0`. -/
def dbC1 : DB := { users := [mgrW, empW], feedbacks := [fbC1], requests := [] }

/-- Sample pending feedback request from employee 2 to manager 1. -/
def reqW : FeedbackRequest :=
  { id := 1, employee_id := 2, manager_id := 1, message := none,
    status := "pending", created_at := 0, completed_at := none }

/-- Store holding the pending request `reqW`. -/
def dbR : DB := { users := [mgrW, empW], feedbacks := [], requests := [reqW] }

/-- Sample unacknowledged feedback from manager 1 to employee 2. -/
def fbA : Feedback :=
  { id := 1, manager_id := 1, employee_id := 2, strengths := "s",
    areas_to_improve := "a", overall_sentiment := SentimentType.positive,
    acknowledged := false, acknowledged_at := none, created_at := 0 }

/-- Store holding the unacknowledged feedback `fbA`. -/
def dbA : DB := { users := [mgrW, empW], feedbacks := [fbA], requests := [] }

/-- The store after `acknowledge_feedback dbA empW 1 5`. -/
def dbA1 : DB :=
  { users := [mgrW, empW],
    feedbacks := [{ fbA with acknowledged := true, acknowledged_at := some 5 }],
    requests := [] }

/-- Sample partial feedback update supplying only `strengths`. -/
def fuW : FeedbackUpdate :=
  { strengths := some "s2", areas_to_improve := none, overall_sentiment := none }

/-- Self-profile update pointing `manager_id` at user 2, who is an employee. -/
def uuBad : UserUpdate :=
  { email := none, full_name := none, manager_id := some 2 }

/-- Store with a manager and two employees, satisfying the org invariant. -/
def dbU : DB := { users := [mgrW, empW, empW2], feedbacks := [], requests := [] }

/-! Invariants and the transition relation generated by the handlers. -/

/-- Feedback acknowledgment invariant: `acknowledged` is true iff
`acknowledged_at` is non-null. -/
def FbInv (db : DB) : Prop :=
  ∀ f ∈ db.feedbacks, f.acknowledged = f.acknowledged_at.isSome

/-- No two request rows are both pending for the same (employee, manager) pair. -/
def ReqOK (a b : FeedbackRequest) : Prop :=
  ¬(a.status = "pending" ∧ b.status = "pending" ∧
    a.employee_id = b.employee_id ∧ a.manager_id = b.manager_id)

/-- At most one pending request per (employee, manager) pair. -/
def PendInv (db : DB) : Prop := db.requests.Pairwise ReqOK

/-- Every set `manager_id` references some user with role manager. -/
def managerRefOk (db : DB) (u : User) : Bool :=
  match u.manager_id with
  | none => true
  | some m => db.users.any (fun v => v.id == m && v.role == UserRole.manager)

/-- Org invariant: each user's `manager_id`, if set, references a manager. -/
def UserInv (db : DB) : Prop := ∀ u ∈ db.users, managerRefOk db u = true

/-- One successful state-changing request handled by any of the endpoints. -/
inductive Step : DB → DB → Prop where
  | createFb : ∀ (db db' : DB) (c : User) (d : FeedbackCreate) (i t : Nat) (f : Feedback),
      create_feedback db c d i t = .ok (db', f) → Step db db'
  | updateFb : ∀ (db db' : DB) (c : User) (fid : Nat) (u : FeedbackUpdate),
      update_feedback db c fid u = .ok db' → Step db db'
  | ackFb : ∀ (db db' : DB) (c : User) (fid t : Nat),
      acknowledge_feedback db c fid t = .ok db' → Step db db'
  | createReq : ∀ (db db' : DB) (c : User) (msg : Option String) (i t : Nat)
      (r : FeedbackRequest),
      create_feedback_request db c msg i t = .ok (db', r) → Step db db'
  | completeReq : ∀ (db db' : DB) (c : User) (rid t : Nat),
      complete_feedback_request db c rid t = .ok db' → Step db db'
  | cancelReq : ∀ (db db' : DB) (c : User) (rid : Nat),
      cancel_feedback_request db c rid = .ok db' → Step db db'
  | updateUser : ∀ (db : DB) (c : User) (u : UserUpdate),
      Step db (update_current_user db c u).1

instance (a b : FeedbackRequest) : Decidable (ReqOK a b) := by
  unfold ReqOK
  infer_instance

instance (db : DB) : Decidable (FbInv db) := by
  unfold FbInv
  infer_instance

instance (db : DB) : Decidable (PendInv db) := by
  unfold PendInv
  infer_instance

instance (db : DB) : Decidable (UserInv db) := by
  unfold UserInv
  infer_instance

/-! Helper lemmas about `updateFirst`. -/

theorem mem_updateFirst {p : α → Bool} {g : α → α} {l : List α} {x : α}
    (h : x ∈ updateFirst p g l) : x ∈ l ∨ ∃ y ∈ l, x = g y := by
  induction l with
  | nil => simp [updateFirst] at h
  | cons a as ih =>
    simp only [updateFirst] at h
    by_cases hp : p a
    · simp only [hp, if_pos] at h
      rcases List.mem_cons.mp h with h1 | h1
      · exact Or.inr ⟨a, List.mem_cons_self a as, h1⟩
      · exact Or.inl (List.mem_cons_of_mem a h1)
    · simp only [hp, if_neg, if_false] at h
      rcases List.mem_cons.mp h with h1 | h1
      · exact Or.inl (h1 ▸ List.mem_cons_self a as)
      · rcases ih h1 with h2 | ⟨y, hy, hxy⟩
        · exact Or.inl (List.mem_cons_of_mem a h2)
        · exact Or.inr ⟨y, List.mem_cons_of_mem a hy, hxy⟩

theorem find?_updateFirst {p : α → Bool} {g : α → α} (l : List α)
    (hpg : ∀ x, p (g x) = p x) :
    (updateFirst p g l).find? p = (l.find? p).map g := by
  induction l with
  | nil => simp [updateFirst]
  | cons a as ih =>
    by_cases hp : p a
    · simp [updateFirst, hp, List.find?_cons, hpg a]
    · simp only [updateFirst, hp, if_false, Bool.false_eq_true, if_neg]
      rw [List.find?_cons_of_neg _ (by simp [hp]), List.find?_cons_of_neg _ (by simp [hp]), ih]

theorem updateFirst_of_not_mem {p : α → Bool} {g : α → α} {l : List α}
    (h : ∀ x ∈ l, p x = false) : updateFirst p g l = l := by
  induction l with
  | nil => rfl
  | cons a as ih =>
    have ha := h a (List.mem_cons_self a as)
    simp only [updateFirst, ha, Bool.false_eq_true, if_neg, if_false]
    rw [ih (fun x hx => h x (List.mem_cons_of_mem a hx))]

theorem find?_eq_some_of_unique {p : α → Bool} {l : List α} {r : α}
    (hr : r ∈ l) (hp : p r = true) (huniq : ∀ q ∈ l, p q = true → q = r) :
    l.find? p = some r := by
  induction l with
  | nil => simp at hr
  | cons a as ih =>
    by_cases hpa : p a
    · rw [List.find?_cons_of_pos _ hpa]
      exact congrArg some (huniq a (List.mem_cons_self a as) hpa)
    · rw [List.find?_cons_of_neg _ hpa]
      have hra : r ≠ a := fun he => hpa (he ▸ hp)
      have hras : r ∈ as := by
        rcases List.mem_cons.mp hr with h1 | h1
        · exact absurd h1 hra
        · exact h1
      exact ih hras (fun q hq => huniq q (List.mem_cons_of_mem a hq))

theorem filter_updateFirst_nil {p q : α → Bool} {g : α → α} {l : List α} {r : α}
    (hpr : p r = true)
    (huniq : ∀ y ∈ l, p y = true → y = r)
    (hfil : l.filter q = [r])
    (hg : ∀ x, q (g x) = false) :
    (updateFirst p g l).filter q = [] := by
  induction l with
  | nil => simp at hfil
  | cons a as ih =>
    by_cases hpa : p a
    · have har : a = r := huniq a (List.mem_cons_self a as) hpa
      subst har
      have hqa : q a = true := by
        by_contra hq
        rw [List.filter_cons_of_neg (by simpa using hq)] at hfil
        have : a ∈ as.filter q := hfil ▸ List.mem_cons_self a []
        have : q a = true := (List.mem_filter.mp this).2
        exact hq this
      rw [List.filter_cons_of_pos hqa] at hfil
      have htail : as.filter q = [] := by
        injection hfil with _ h2
      simp only [updateFirst, hpa, if_pos]
      rw [List.filter_cons_of_neg (by simp [hg a]), htail]
    · have har : a ≠ r := fun he => hpa (he ▸ hpr)
      have hqa : q a = false := by
        by_contra hq
        rw [List.filter_cons_of_pos (by simpa using hq)] at hfil
        injection hfil with h1 _
        exact har h1
      rw [List.filter_cons_of_neg (by simp [hqa])] at hfil
      simp only [updateFirst, hpa, Bool.false_eq_true, if_neg, if_false]
      rw [List.filter_cons_of_neg (by simp [hqa])]
      exact ih (fun y hy => huniq y (List.mem_cons_of_mem a hy)) hfil

/-! Success-shape lemmas: what each handler's `.ok` result looks like. -/

theorem create_feedback_ok {db db' : DB} {c : User} {d : FeedbackCreate} {i t : Nat}
    {f : Feedback} (h : create_feedback db c d i t = .ok (db', f)) :
    db'.users = db.users ∧ db'.requests = db.requests ∧
    db'.feedbacks = db.feedbacks ++ [f] ∧
    f.acknowledged = false ∧ f.acknowledged_at = none ∧
    f.manager_id = c.id ∧ f.employee_id = d.employee_id := by
  unfold create_feedback at h
  split at h
  · simp at h
  · split at h
    · simp at h
    · split at h
      · simp at h
      · simp only [Except.ok.injEq, Prod.mk.injEq] at h
        obtain ⟨hdb, hf⟩ := h
        subst hdb
        subst hf
        exact ⟨rfl, rfl, rfl, rfl, rfl, rfl, rfl⟩

theorem update_feedback_ok {db db' : DB} {c : User} {fid : Nat} {u : FeedbackUpdate}
    (h : update_feedback db c fid u = .ok db') :
    db'.users = db.users ∧ db'.requests = db.requests ∧
    db'.feedbacks = updateFirst (fun f => f.id == fid) (applyFeedbackUpdate u) db.feedbacks := by
  unfold update_feedback at h
  split at h
  · simp at h
  · split at h
    · simp at h
    · simp only [Except.ok.injEq] at h
      subst h
      exact ⟨rfl, rfl, rfl⟩

theorem acknowledge_feedback_ok {db db' : DB} {c : User} {fid t : Nat}
    (h : acknowledge_feedback db c fid t = .ok db') :
    db'.users = db.users ∧ db'.requests = db.requests ∧
    db'.feedbacks = updateFirst (fun f => f.id == fid)
      (fun f => { f with acknowledged := true, acknowledged_at := some t }) db.feedbacks ∧
    ∃ fb, db.feedbacks.find? (fun f => f.id == fid) = some fb ∧ fb.employee_id = c.id := by
  unfold acknowledge_feedback at h
  split at h
  · simp at h
  · next fb hfind =>
    split at h
    · simp at h
    · next hemp =>
      simp only [Except.ok.injEq] at h
      subst h
      exact ⟨rfl, rfl, rfl, fb, hfind, not_not.mp hemp⟩

theorem create_feedback_request_ok {db db' : DB} {c : User} {msg : Option String}
    {i t : Nat} {r : FeedbackRequest}
    (h : create_feedback_request db c msg i t = .ok (db', r)) :
    db'.users = db.users ∧ db'.feedbacks = db.feedbacks ∧
    db'.requests = db.requests ++ [r] ∧
    r.status = "pending" ∧ r.employee_id = c.id ∧ c.manager_id = some r.manager_id ∧
    db.requests.find? (pendingPair c.id r.manager_id) = none := by
  unfold create_feedback_request at h
  split at h
  · simp at h
  · split at h
    · simp at h
    · next m hm =>
      split at h
      · simp at h
      · split at h
        · simp at h
        · next hdup =>
          simp only [Except.ok.injEq, Prod.mk.injEq] at h
          obtain ⟨hdb, hr⟩ := h
          subst hdb
          subst hr
          exact ⟨rfl, rfl, rfl, rfl, rfl, hm, by simpa using hdup⟩

theorem complete_feedback_request_ok {db db' : DB} {c : User} {rid t : Nat}
    (h : complete_feedback_request db c rid t = .ok db') :
    db'.users = db.users ∧ db'.feedbacks = db.feedbacks ∧
    db'.requests = updateFirst (fun r => r.id == rid)
      (fun r => { r with status := "completed", completed_at := some t }) db.requests := by
  unfold complete_feedback_request at h
  split at h
  · simp at h
  · split at h
    · simp at h
    · simp only [Except.ok.injEq] at h
      subst h
      exact ⟨rfl, rfl, rfl⟩

theorem cancel_feedback_request_ok {db db' : DB} {c : User} {rid : Nat}
    (h : cancel_feedback_request db c rid = .ok db') :
    db'.users = db.users ∧ db'.feedbacks = db.feedbacks ∧
    db'.requests = updateFirst (fun r => r.id == rid)
      (fun r => { r with status := "cancelled" }) db.requests := by
  unfold cancel_feedback_request at h
  split at h
  · simp at h
  · split at h
    · simp at h
    · simp only [Except.ok.injEq] at h
      subst h
      exact ⟨rfl, rfl, rfl⟩

theorem pendingPair_spec {e m : Nat} {r : FeedbackRequest} :
    pendingPair e m r = true ↔
      r.employee_id = e ∧ r.manager_id = m ∧ r.status = "pending" := by
  simp [pendingPair, Bool.and_eq_true, beq_iff_eq, and_assoc]

theorem reqOK_left {a b : FeedbackRequest} (h : a.status ≠ "pending") : ReqOK a b :=
  fun hc => h hc.1

theorem completed_row_status (x : FeedbackRequest) (t : Nat) :
    ({ x with status := "completed", completed_at := some t } : FeedbackRequest).status =
      "completed" := rfl

theorem cancelled_row_status (x : FeedbackRequest) :
    ({ x with status := "cancelled" } : FeedbackRequest).status = "cancelled" := rfl

theorem reqOK_right {a b : FeedbackRequest} (h : b.status ≠ "pending") : ReqOK a b :=
  fun hc => h hc.2.1

theorem pairwise_updateFirst {R : α → α → Prop} {p : α → Bool} {g : α → α} {l : List α}
    (hl : l.Pairwise R) (hg1 : ∀ x b, R (g x) b) (hg2 : ∀ a x, R a (g x)) :
    (updateFirst p g l).Pairwise R := by
  induction l with
  | nil => exact List.Pairwise.nil
  | cons a as ih =>
    rcases List.pairwise_cons.mp hl with ⟨ha, has⟩
    by_cases hp : p a
    · simp only [updateFirst, hp, if_pos]
      exact List.pairwise_cons.mpr ⟨fun b _ => hg1 a b, has⟩
    · simp only [updateFirst, hp, Bool.false_eq_true, if_neg, if_false]
      refine List.pairwise_cons.mpr ⟨?_, ih has⟩
      intro b hb
      rcases mem_updateFirst hb with h1 | ⟨y, _, hy⟩
      · exact ha b h1
      · exact hy ▸ hg2 a y

theorem pendInv_count {db : DB} (h : PendInv db) (e m : Nat) :
    (db.requests.filter (pendingPair e m)).length ≤ 1 := by
  have hp : (db.requests.filter (pendingPair e m)).Pairwise ReqOK :=
    List.Pairwise.filter _ h
  match hfl : db.requests.filter (pendingPair e m) with
  | [] => simp
  | [_] => simp
  | a :: b :: tl =>
    exfalso
    rw [hfl] at hp
    have hab : ReqOK a b := (List.pairwise_cons.mp hp).1 b (List.mem_cons_self b tl)
    have hafil : a ∈ db.requests.filter (pendingPair e m) := by
      rw [hfl]; exact List.mem_cons_self a (b :: tl)
    have hbfil : b ∈ db.requests.filter (pendingPair e m) := by
      rw [hfl]; exact List.mem_cons_of_mem a (List.mem_cons_self b tl)
    have hpa := pendingPair_spec.mp (List.mem_filter.mp hafil).2
    have hpb := pendingPair_spec.mp (List.mem_filter.mp hbfil).2
    exact hab ⟨hpa.2.2, hpb.2.2, hpa.1.trans hpb.1.symm, hpa.2.1.trans hpb.2.1.symm⟩

theorem pendInv_filter_single {db : DB} {r : FeedbackRequest} {e m : Nat}
    (h : PendInv db) (hr : r ∈ db.requests) (hp : pendingPair e m r = true) :
    db.requests.filter (pendingPair e m) = [r] := by
  have hmem : r ∈ db.requests.filter (pendingPair e m) := List.mem_filter.mpr ⟨hr, hp⟩
  have hlen := pendInv_count h e m
  match hfl : db.requests.filter (pendingPair e m) with
  | [] => rw [hfl] at hmem; simp at hmem
  | [a] =>
    rw [hfl] at hmem
    simp only [List.mem_singleton] at hmem
    rw [hmem]
  | a :: b :: tl => rw [hfl] at hlen; simp at hlen

theorem fbInv_step {db db' : DB} (hinv : FbInv db) (hs : Step db db') : FbInv db' := by
  cases hs with
  | createFb _ c d i t f h =>
    obtain ⟨_, _, hfb, hack, hat, _, _⟩ := create_feedback_ok h
    intro x hx
    rw [hfb] at hx
    rcases List.mem_append.mp hx with h1 | h1
    · exact hinv x h1
    · simp only [List.mem_singleton] at h1
      subst h1
      rw [hack, hat]
      rfl
  | updateFb _ c fid u h =>
    obtain ⟨_, _, hfb⟩ := update_feedback_ok h
    intro x hx
    rw [hfb] at hx
    rcases mem_updateFirst hx with h1 | ⟨y, hy, hxy⟩
    · exact hinv x h1
    · subst hxy
      simpa [applyFeedbackUpdate] using hinv y hy
  | ackFb _ c fid t h =>
    obtain ⟨_, _, hfb, _⟩ := acknowledge_feedback_ok h
    intro x hx
    rw [hfb] at hx
    rcases mem_updateFirst hx with h1 | ⟨y, _, hxy⟩
    · exact hinv x h1
    · subst hxy
      rfl
  | createReq _ c msg i t r h =>
    obtain ⟨_, hfb, _, _⟩ := create_feedback_request_ok h
    intro x hx
    rw [hfb] at hx
    exact hinv x hx
  | completeReq _ c rid t h =>
    obtain ⟨_, hfb, _⟩ := complete_feedback_request_ok h
    intro x hx
    rw [hfb] at hx
    exact hinv x hx
  | cancelReq _ c rid h =>
    obtain ⟨_, hfb, _⟩ := cancel_feedback_request_ok h
    intro x hx
    rw [hfb] at hx
    exact hinv x hx
  | updateUser c u =>
    intro x hx
    exact hinv x hx

theorem pendInv_step {db db' : DB} (hinv : PendInv db) (hs : Step db db') : PendInv db' := by
  cases hs with
  | createFb _ c d i t f h =>
    obtain ⟨_, hrq, _⟩ := create_feedback_ok h
    unfold PendInv
    rw [hrq]
    exact hinv
  | updateFb _ c fid u h =>
    obtain ⟨_, hrq, _⟩ := update_feedback_ok h
    unfold PendInv
    rw [hrq]
    exact hinv
  | ackFb _ c fid t h =>
    obtain ⟨_, hrq, _⟩ := acknowledge_feedback_ok h
    unfold PendInv
    rw [hrq]
    exact hinv
  | createReq _ c msg i t r h =>
    obtain ⟨_, _, hrq, _, hremp, _, hnone⟩ := create_feedback_request_ok h
    unfold PendInv
    rw [hrq]
    rw [List.pairwise_append]
    refine ⟨hinv, List.pairwise_singleton _ _, ?_⟩
    intro a ha b hb
    simp only [List.mem_singleton] at hb
    subst hb
    intro ⟨hap, hbp, hemp, hmgr⟩
    have := List.find?_eq_none.mp hnone a ha
    exact this (pendingPair_spec.mpr ⟨hemp.trans hremp, hmgr, hap⟩)
  | completeReq _ c rid t h =>
    obtain ⟨_, _, hrq⟩ := complete_feedback_request_ok h
    unfold PendInv
    rw [hrq]
    exact pairwise_updateFirst hinv
      (fun x b => reqOK_left (fun hc =>
        absurd ((completed_row_status x t).symm.trans hc) (by decide)))
      (fun a x => reqOK_right (fun hc =>
        absurd ((completed_row_status x t).symm.trans hc) (by decide)))
  | cancelReq _ c rid h =>
    obtain ⟨_, _, hrq⟩ := cancel_feedback_request_ok h
    unfold PendInv
    rw [hrq]
    exact pairwise_updateFirst hinv
      (fun x b => reqOK_left (fun hc =>
        absurd ((cancelled_row_status x).symm.trans hc) (by decide)))
      (fun a x => reqOK_right (fun hc =>
        absurd ((cancelled_row_status x).symm.trans hc) (by decide)))
  | updateUser c u =>
    exact hinv

theorem fbInv_reach {db db' : DB} (h : FbInv db)
    (hs : Relation.ReflTransGen Step db db') : FbInv db' := by
  induction hs with
  | refl => exact h
  | tail _ hstep ih => exact fbInv_step ih hstep

theorem pendInv_reach {db db' : DB} (h : PendInv db)
    (hs : Relation.ReflTransGen Step db db') : PendInv db' := by
  induction hs with
  | refl => exact h
  | tail _ hstep ih => exact pendInv_step ih hstep

/-! Claim theorems. -/

/-- C6: `complete_feedback_request` fails with NotFound when the request id is
absent and with Forbidden when the caller is not the request's manager;
otherwise, regardless of the request's current status (including already
completed or cancelled), it succeeds and sets status="completed" and
completed_at=now, leaving users and feedback untouched. -/
theorem c6_complete_request (db : DB) (c : User) (rid t : Nat) :
    (db.requests.find? (fun r => r.id == rid) = none →
      complete_feedback_request db c rid t = .error .notFound)
  ∧ (∀ r, db.requests.find? (fun q => q.id == rid) = some r →
      r.manager_id ≠ c.id →
      complete_feedback_request db c rid t = .error .forbidden)
  ∧ (∀ r, db.requests.find? (fun q => q.id == rid) = some r →
      r.manager_id = c.id →
      ∃ db', complete_feedback_request db c rid t = .ok db'
        ∧ db'.requests.find? (fun q => q.id == rid) =
            some { r with status := "completed", completed_at := some t }
        ∧ db'.users = db.users ∧ db'.feedbacks = db.feedbacks) := by
  refine ⟨?_, ?_, ?_⟩
  · intro h
    simp [complete_feedback_request, h]
  · intro r hfind hmgr
    simp [complete_feedback_request, hfind, hmgr]
  · intro r hfind hmgr
    refine ⟨{ db with
        requests := updateFirst (fun q => q.id == rid)
          (fun q => { q with status := "completed", completed_at := some t })
          db.requests }, ?_, ?_, rfl, rfl⟩
    · simp only [complete_feedback_request, hfind]
      rw [if_neg (by simp [hmgr])]
    · show List.find? (fun q => q.id == rid)
          (updateFirst (fun q => q.id == rid)
            (fun q => { q with status := "completed", completed_at := some t })
            db.requests) = _
      rw [@find?_updateFirst FeedbackRequest (fun q => q.id == rid)
        (fun q => { q with status := "completed", completed_at := some t })
        db.requests (fun x => rfl), hfind]
      rfl

/-- C7: `cancel_feedback_request` succeeds exactly when the caller is the
request's employee or manager (Forbidden when neither, NotFound when the id
is absent); on success the request's status becomes "cancelled" while every
other field of the request, including completed_at, is unchanged, as are the
users and feedback tables. -/
theorem c7_cancel_request (db : DB) (c : User) (rid : Nat) :
    ((∃ db', cancel_feedback_request db c rid = .ok db') ↔
      ∃ r, db.requests.find? (fun q => q.id == rid) = some r ∧
        (c.id = r.employee_id ∨ c.id = r.manager_id))
  ∧ (db.requests.find? (fun q => q.id == rid) = none →
      cancel_feedback_request db c rid = .error .notFound)
  ∧ (∀ r, db.requests.find? (fun q => q.id == rid) = some r →
      r.employee_id ≠ c.id → r.manager_id ≠ c.id →
      cancel_feedback_request db c rid = .error .forbidden)
  ∧ (∀ r, db.requests.find? (fun q => q.id == rid) = some r →
      c.id = r.employee_id ∨ c.id = r.manager_id →
      ∃ db', cancel_feedback_request db c rid = .ok db'
        ∧ db'.requests.find? (fun q => q.id == rid) =
            some { r with status := "cancelled" }
        ∧ ({ r with status := "cancelled" } : FeedbackRequest).completed_at =
            r.completed_at
        ∧ ({ r with status := "cancelled" } : FeedbackRequest).id = r.id
        ∧ ({ r with status := "cancelled" } : FeedbackRequest).employee_id =
            r.employee_id
        ∧ ({ r with status := "cancelled" } : FeedbackRequest).manager_id =
            r.manager_id
        ∧ ({ r with status := "cancelled" } : FeedbackRequest).message = r.message
        ∧ ({ r with status := "cancelled" } : FeedbackRequest).created_at =
            r.created_at
        ∧ db'.users = db.users ∧ db'.feedbacks = db.feedbacks) := by
  have hok : ∀ r, db.requests.find? (fun q => q.id == rid) = some r →
      c.id = r.employee_id ∨ c.id = r.manager_id →
      ∃ db', cancel_feedback_request db c rid = .ok db'
        ∧ db'.requests.find? (fun q => q.id == rid) =
            some { r with status := "cancelled" } := by
    intro r hfind hparty
    have hcond : ¬(r.employee_id ≠ c.id ∧ r.manager_id ≠ c.id) := by
      rcases hparty with h | h
      · exact fun hc => hc.1 h.symm
      · exact fun hc => hc.2 h.symm
    refine ⟨{ db with
        requests := updateFirst (fun q => q.id == rid)
          (fun q => { q with status := "cancelled" }) db.requests }, ?_, ?_⟩
    · simp only [cancel_feedback_request, hfind]
      rw [if_neg hcond]
    · show List.find? (fun q => q.id == rid)
          (updateFirst (fun q => q.id == rid)
            (fun q => { q with status := "cancelled" }) db.requests) = _
      rw [@find?_updateFirst FeedbackRequest (fun q => q.id == rid)
        (fun q => { q with status := "cancelled" })
        db.requests (fun x => rfl), hfind]
      rfl
  refine ⟨?_, ?_, ?_, ?_⟩
  · constructor
    · rintro ⟨db', hdb'⟩
      unfold cancel_feedback_request at hdb'
      split at hdb'
      · simp at hdb'
      · next r hfind =>
        split at hdb'
        · simp at hdb'
        · next hcond =>
          rcases not_and_or.mp hcond with h | h
          · exact ⟨r, hfind, Or.inl (not_not.mp h).symm⟩
          · exact ⟨r, hfind, Or.inr (not_not.mp h).symm⟩
    · rintro ⟨r, hfind, hparty⟩
      obtain ⟨db', hdb', _⟩ := hok r hfind hparty
      exact ⟨db', hdb'⟩
  · intro h
    simp [cancel_feedback_request, h]
  · intro r hfind hemp hmgr
    simp only [cancel_feedback_request, hfind]
    rw [if_pos ⟨hemp, hmgr⟩]
  · intro r hfind hparty
    obtain ⟨db', h1, h2⟩ := hok r hfind hparty
    exact ⟨db', h1, h2, rfl, rfl, rfl, rfl, rfl, rfl,
      (cancel_feedback_request_ok h1).1, (cancel_feedback_request_ok h1).2.1⟩

/-- C9: `update_feedback` requires the caller to own the record (NotFound on
missing id, Forbidden when the caller is not the authoring manager); on
success it applies exactly the supplied subset of strengths /
areas_to_improve / overall_sentiment, leaves absent fields at their prior
values, and never changes acknowledged, acknowledged_at, manager_id or
employee_id, nor the users and requests tables. -/
theorem c9_update_feedback (db : DB) (c : User) (fid : Nat) (u : FeedbackUpdate) :
    (db.feedbacks.find? (fun f => f.id == fid) = none →
      update_feedback db c fid u = .error .notFound)
  ∧ (∀ f, db.feedbacks.find? (fun x => x.id == fid) = some f →
      f.manager_id ≠ c.id → update_feedback db c fid u = .error .forbidden)
  ∧ (∀ f, db.feedbacks.find? (fun x => x.id == fid) = some f →
      f.manager_id = c.id →
      ∃ db', update_feedback db c fid u = .ok db'
        ∧ db'.feedbacks.find? (fun x => x.id == fid) = some (applyFeedbackUpdate u f)
        ∧ (applyFeedbackUpdate u f).acknowledged = f.acknowledged
        ∧ (applyFeedbackUpdate u f).acknowledged_at = f.acknowledged_at
        ∧ (applyFeedbackUpdate u f).manager_id = f.manager_id
        ∧ (applyFeedbackUpdate u f).employee_id = f.employee_id
        ∧ (u.strengths = none → (applyFeedbackUpdate u f).strengths = f.strengths)
        ∧ (∀ s, u.strengths = some s → (applyFeedbackUpdate u f).strengths = s)
        ∧ (u.areas_to_improve = none →
            (applyFeedbackUpdate u f).areas_to_improve = f.areas_to_improve)
        ∧ (∀ s, u.areas_to_improve = some s →
            (applyFeedbackUpdate u f).areas_to_improve = s)
        ∧ (u.overall_sentiment = none →
            (applyFeedbackUpdate u f).overall_sentiment = f.overall_sentiment)
        ∧ (∀ s, u.overall_sentiment = some s →
            (applyFeedbackUpdate u f).overall_sentiment = s)
        ∧ db'.users = db.users ∧ db'.requests = db.requests) := by
  refine ⟨?_, ?_, ?_⟩
  · intro h
    simp [update_feedback, h]
  · intro f hfind hmgr
    simp [update_feedback, hfind, hmgr]
  · intro f hfind hmgr
    refine ⟨{ db with
        feedbacks := updateFirst (fun x => x.id == fid)
          (applyFeedbackUpdate u) db.feedbacks }, ?_, ?_, rfl, rfl, rfl, rfl,
      ?_, ?_, ?_, ?_, ?_, ?_, rfl, rfl⟩
    · simp only [update_feedback, hfind]
      rw [if_neg (by simp [hmgr])]
    · show List.find? (fun x => x.id == fid)
          (updateFirst (fun x => x.id == fid)
            (applyFeedbackUpdate u) db.feedbacks) = _
      rw [@find?_updateFirst Feedback (fun x => x.id == fid)
        (applyFeedbackUpdate u) db.feedbacks (fun x => rfl), hfind]
      rfl
    · intro h; simp [applyFeedbackUpdate, h]
    · intro s h; simp [applyFeedbackUpdate, h]
    · intro h; simp [applyFeedbackUpdate, h]
    · intro s h; simp [applyFeedbackUpdate, h]
    · intro h; simp [applyFeedbackUpdate, h]
    · intro s h; simp [applyFeedbackUpdate, h]

/-- C10: a caller with role admin always takes the employee branch of the
caller-scoped reads: listed feedback is the feedback addressed to the
admin's id, listed requests are those with the admin's id as employee, and
the admin's dashboard reports team_members_count = 0. -/
theorem c10_admin_reads (db : DB) (c : User) (h : c.role = UserRole.admin) :
    get_feedback db c = db.feedbacks.filter (fun f => f.employee_id == c.id)
  ∧ get_feedback_requests db c = db.requests.filter (fun r => r.employee_id == c.id)
  ∧ (get_dashboard_data db c).stats.team_members_count = 0 := by
  have hm : ¬(c.role = UserRole.manager) := by rw [h]; intro hc; cases hc
  exact ⟨by simp [get_feedback, hm], by simp [get_feedback_requests, hm],
    by simp [get_dashboard_data, hm]⟩

/-- C2: `create_feedback` succeeds exactly when the caller is a manager, the
target employee exists and has manager_id equal to the caller's id; a
non-manager caller gets Forbidden, a manager targeting a missing employee
gets NotFound, a manager targeting someone else's employee gets Forbidden,
and on success a new record with acknowledged=false and manager_id equal to
the caller's id is persisted. -/
theorem c2_create_feedback_access (db : DB) (c : User) (d : FeedbackCreate)
    (i t : Nat) :
    ((∃ res, create_feedback db c d i t = .ok res) ↔
      c.role = UserRole.manager ∧
      ∃ e, db.users.find? (fun u => u.id == d.employee_id) = some e ∧
        e.manager_id = some c.id)
  ∧ (c.role ≠ UserRole.manager → create_feedback db c d i t = .error .forbidden)
  ∧ (c.role = UserRole.manager →
      db.users.find? (fun u => u.id == d.employee_id) = none →
      create_feedback db c d i t = .error .notFound)
  ∧ (∀ e, c.role = UserRole.manager →
      db.users.find? (fun u => u.id == d.employee_id) = some e →
      e.manager_id ≠ some c.id →
      create_feedback db c d i t = .error .forbidden)
  ∧ (∀ e, c.role = UserRole.manager →
      db.users.find? (fun u => u.id == d.employee_id) = some e →
      e.manager_id = some c.id →
      ∃ f, create_feedback db c d i t =
          .ok ({ db with feedbacks := db.feedbacks ++ [f] }, f)
        ∧ f.acknowledged = false ∧ f.acknowledged_at = none
        ∧ f.manager_id = c.id ∧ f.employee_id = d.employee_id) := by
  have hok : ∀ e, c.role = UserRole.manager →
      db.users.find? (fun u => u.id == d.employee_id) = some e →
      e.manager_id = some c.id →
      ∃ f, create_feedback db c d i t =
          .ok ({ db with feedbacks := db.feedbacks ++ [f] }, f)
        ∧ f.acknowledged = false ∧ f.acknowledged_at = none
        ∧ f.manager_id = c.id ∧ f.employee_id = d.employee_id := by
    intro e hrole hfind hmgr
    let fb : Feedback :=
      { id := i
        manager_id := c.id
        employee_id := d.employee_id
        strengths := d.strengths
        areas_to_improve := d.areas_to_improve
        overall_sentiment := d.overall_sentiment
        acknowledged := false
        acknowledged_at := none
        created_at := t }
    refine ⟨fb, ?_, rfl, rfl, rfl, rfl⟩
    simp only [create_feedback, hfind]
    rw [if_neg (by simp [hrole]), if_neg (by simp [hmgr])]
  refine ⟨?_, ?_, ?_, ?_, hok⟩
  · constructor
    · rintro ⟨res, hres⟩
      unfold create_feedback at hres
      split at hres
      · simp at hres
      · next hrole =>
        split at hres
        · simp at hres
        · next e hfind =>
          split at hres
          · simp at hres
          · next hmgr =>
            exact ⟨not_not.mp hrole, e, hfind, not_not.mp hmgr⟩
    · rintro ⟨hrole, e, hfind, hmgr⟩
      obtain ⟨f, hf, _⟩ := hok e hrole hfind hmgr
      exact ⟨_, hf⟩
  · intro hrole
    simp [create_feedback, hrole]
  · intro hrole hfind
    simp only [create_feedback, hfind]
    rw [if_neg (by simp [hrole])]
  · intro e hrole hfind hmgr
    simp only [create_feedback, hfind]
    rw [if_neg (by simp [hrole]), if_pos hmgr]

theorem length_sentiment_partition (l : List Feedback) :
    l.length =
      (l.filter (fun f => f.overall_sentiment == SentimentType.positive)).length
      + (l.filter (fun f => f.overall_sentiment == SentimentType.neutral)).length
      + (l.filter (fun f => f.overall_sentiment == SentimentType.negative)).length := by
  induction l with
  | nil => rfl
  | cons a as ih =>
    cases hs : a.overall_sentiment <;>
      simp [List.filter_cons, List.length_cons, hs, ih] <;> omega

/-- C5: the dashboard aggregate is computed over exactly the caller's visible
feedback set; each sentiment count is the exact number of visible records
with that sentiment, total_feedback is their sum, and team_members_count is
the number of the manager's direct reports (0 for an employee caller). -/
theorem c5_dashboard (db : DB) (c : User) :
    ((get_dashboard_data db c).feedback = get_feedback db c)
  ∧ (get_dashboard_data db c).stats.total_feedback = (get_feedback db c).length
  ∧ (get_dashboard_data db c).stats.positive_feedback =
      ((get_feedback db c).filter
        (fun f => f.overall_sentiment == SentimentType.positive)).length
  ∧ (get_dashboard_data db c).stats.neutral_feedback =
      ((get_feedback db c).filter
        (fun f => f.overall_sentiment == SentimentType.neutral)).length
  ∧ (get_dashboard_data db c).stats.negative_feedback =
      ((get_feedback db c).filter
        (fun f => f.overall_sentiment == SentimentType.negative)).length
  ∧ (get_dashboard_data db c).stats.total_feedback =
      (get_dashboard_data db c).stats.positive_feedback
      + (get_dashboard_data db c).stats.neutral_feedback
      + (get_dashboard_data db c).stats.negative_feedback
  ∧ (c.role = UserRole.manager →
      (get_dashboard_data db c).stats.team_members_count =
        (db.users.filter (fun u => u.manager_id == some c.id)).length)
  ∧ (c.role = UserRole.employee →
      (get_dashboard_data db c).stats.team_members_count = 0) := by
  have hfb : (get_dashboard_data db c).feedback = get_feedback db c := by
    by_cases hrole : c.role = UserRole.manager <;>
      simp [get_dashboard_data, get_feedback, hrole]
  have hsum : (get_dashboard_data db c).stats.total_feedback =
      (get_dashboard_data db c).stats.positive_feedback
      + (get_dashboard_data db c).stats.neutral_feedback
      + (get_dashboard_data db c).stats.negative_feedback := by
    by_cases hrole : c.role = UserRole.manager <;>
      simp only [get_dashboard_data, hrole, if_pos, if_neg, if_true, if_false,
        ite_true, ite_false] <;>
      exact length_sentiment_partition _
  refine ⟨hfb, ?_, ?_, ?_, ?_, hsum, ?_, ?_⟩
  · by_cases hrole : c.role = UserRole.manager <;>
      simp [get_dashboard_data, get_feedback, hrole]
  · by_cases hrole : c.role = UserRole.manager <;>
      simp [get_dashboard_data, get_feedback, hrole]
  · by_cases hrole : c.role = UserRole.manager <;>
      simp [get_dashboard_data, get_feedback, hrole]
  · by_cases hrole : c.role = UserRole.manager <;>
      simp [get_dashboard_data, get_feedback, hrole]
  · intro hrole
    simp [get_dashboard_data, hrole]
  · intro hrole
    have hm : ¬(c.role = UserRole.manager) := by rw [hrole]; intro hc; cases hc
    simp [get_dashboard_data, hm]

theorem create_req_badRequest_of_pending {db : DB} {c : User} {m : Nat}
    (hrole : c.role = UserRole.employee) (hmgr : c.manager_id = some m)
    (hfound : (db.requests.find? (pendingPair c.id m)).isSome = true)
    (msg : Option String) (i t : Nat) :
    create_feedback_request db c msg i t = .error .badRequest := by
  unfold create_feedback_request
  split
  · next hne => exact absurd hrole hne
  · split
    · next heq =>
      rw [hmgr] at heq
    · next m' heq =>
      have hm'm : m = m' := by
        rw [hmgr] at heq
        exact Option.some.inj heq
      subst hm'm
      split
      · rfl
      · rfl

theorem create_req_ok_of_no_pending {db : DB} {c : User} {m : Nat}
    (hrole : c.role = UserRole.employee) (hmgr : c.manager_id = some m)
    (hm0 : m ≠ 0) (hnone : db.requests.find? (pendingPair c.id m) = none)
    (msg : Option String) (i t : Nat) :
    ∃ db' r, create_feedback_request db c msg i t = .ok (db', r) := by
  unfold create_feedback_request
  split
  · next hne => exact absurd hrole hne
  · split
    · next heq =>
      rw [hmgr] at heq
      simp at heq
    · next m' heq =>
      have hm'm : m = m' := by
        rw [hmgr] at heq
        exact Option.some.inj heq
      subst hm'm
      split
      · next h0 => exact absurd h0 hm0
      · split
        · next hsome =>
          rw [hnone] at hsome
          simp at hsome
        · exact ⟨_, _, rfl⟩

/-- C1: the acknowledgment invariant — `acknowledged` is true iff
`acknowledged_at` is non-null — holds of every feedback record in every
store reachable by any sequence of successful operations from a store
satisfying it; in particular every operation preserves it. -/
theorem c1_ack_invariant (db db' : DB) (h : FbInv db)
    (hs : Relation.ReflTransGen Step db db') : FbInv db' :=
  fbInv_reach h hs

/-- C3: starting from a store with at most one pending request per
(employee, manager) pair, any sequence of operations preserves that bound;
while a pending request for the caller's pair exists, a further
`create_feedback_request` returns BadRequest; and once the pending request
has been completed or cancelled, a new create for the same pair succeeds. -/
theorem c3_pending_uniqueness (db db' : DB) (h : PendInv db)
    (hs : Relation.ReflTransGen Step db db') :
    (∀ e m, ((db'.requests.filter (pendingPair e m)).length ≤ 1))
  ∧ (∀ (c : User) (m : Nat) (msg : Option String) (i t : Nat),
      c.role = UserRole.employee → c.manager_id = some m →
      (∃ r ∈ db'.requests, pendingPair c.id m r = true) →
      create_feedback_request db' c msg i t = .error .badRequest)
  ∧ (∀ (c mgr : User) (r : FeedbackRequest) (msg : Option String) (t i2 t2 : Nat),
      r ∈ db'.requests → r.employee_id = c.id → r.status = "pending" →
      c.role = UserRole.employee → c.manager_id = some r.manager_id →
      r.manager_id ≠ 0 →
      (∀ q ∈ db'.requests, q.id = r.id → q = r) →
      mgr.id = r.manager_id →
      (∃ db2, complete_feedback_request db' mgr r.id t = .ok db2 ∧
        ∃ db3 nr, create_feedback_request db2 c msg i2 t2 = .ok (db3, nr)) ∧
      (∃ db2, cancel_feedback_request db' mgr r.id = .ok db2 ∧
        ∃ db3 nr, create_feedback_request db2 c msg i2 t2 = .ok (db3, nr))) := by
  have hinv' : PendInv db' := pendInv_reach h hs
  refine ⟨fun e m => pendInv_count hinv' e m, ?_, ?_⟩
  · rintro c m msg i t hrole hmgr ⟨r, hr, hpr⟩
    exact create_req_badRequest_of_pending hrole hmgr
      (List.find?_isSome.mpr ⟨r, hr, hpr⟩) msg i t
  · intro c mgr r msg t i2 t2 hr hremp hrpend hrole hmgr hm0 huniq hmgrid
    have hfind : db'.requests.find? (fun q => q.id == r.id) = some r :=
      find?_eq_some_of_unique hr (by simp)
        (fun q hq hpq => huniq q hq (by simpa using hpq))
    have hfil : db'.requests.filter (pendingPair c.id r.manager_id) = [r] :=
      pendInv_filter_single hinv' hr
        (pendingPair_spec.mpr ⟨hremp, rfl, hrpend⟩)
    have huniq' : ∀ y ∈ db'.requests, (fun q => q.id == r.id) y = true → y = r :=
      fun y hy hpy => huniq y hy (by simpa using hpy)
    constructor
    · refine ⟨{ db' with
          requests := updateFirst (fun q => q.id == r.id)
            (fun q => { q with status := "completed", completed_at := some t })
            db'.requests }, ?_, ?_⟩
      · simp only [complete_feedback_request, hfind]
        rw [if_neg (by simp [hmgrid])]
      · have hnil : (updateFirst (fun q => q.id == r.id)
            (fun q => { q with status := "completed", completed_at := some t })
            db'.requests).filter (pendingPair c.id r.manager_id) = [] :=
          filter_updateFirst_nil (by simp) huniq' hfil
            (fun x => by simp [pendingPair])
        have hnone : (updateFirst (fun q => q.id == r.id)
            (fun q => { q with status := "completed", completed_at := some t })
            db'.requests).find? (pendingPair c.id r.manager_id) = none :=
          List.find?_eq_none.mpr
            (fun x hx => by
              have := List.filter_eq_nil_iff.mp hnil x hx
              simpa using this)
        exact create_req_ok_of_no_pending hrole hmgr hm0 hnone msg i2 t2
    · refine ⟨{ db' with
          requests := updateFirst (fun q => q.id == r.id)
            (fun q => { q with status := "cancelled" })
            db'.requests }, ?_, ?_⟩
      · simp only [cancel_feedback_request, hfind]
        rw [if_neg (fun hc => hc.2 hmgrid.symm)]
      · have hnil : (updateFirst (fun q => q.id == r.id)
            (fun q => { q with status := "cancelled" })
            db'.requests).filter (pendingPair c.id r.manager_id) = [] :=
          filter_updateFirst_nil (by simp) huniq' hfil
            (fun x => by simp [pendingPair])
        have hnone : (updateFirst (fun q => q.id == r.id)
            (fun q => { q with status := "cancelled" })
            db'.requests).find? (pendingPair c.id r.manager_id) = none :=
          List.find?_eq_none.mpr
            (fun x hx => by
              have := List.filter_eq_nil_iff.mp hnil x hx
              simpa using this)
        exact create_req_ok_of_no_pending hrole hmgr hm0 hnone msg i2 t2

/-- C8: once a feedback record has been acknowledged by its subject
employee, a further acknowledge call by any caller whose id differs from
the record's employee_id fails with Forbidden, while a further call by the
same subject employee succeeds and re-stamps acknowledged_at with the later
timestamp. -/
theorem c8_reacknowledge (db db1 : DB) (emp c : User) (fid t1 t2 : Nat)
    (h1 : acknowledge_feedback db emp fid t1 = .ok db1) (hlt : t1 < t2) :
    ∃ r1, db1.feedbacks.find? (fun f => f.id == fid) = some r1
      ∧ r1.employee_id = emp.id ∧ r1.acknowledged = true
      ∧ r1.acknowledged_at = some t1
      ∧ (c.id ≠ r1.employee_id →
          acknowledge_feedback db1 c fid t2 = .error .forbidden)
      ∧ ∃ db2, acknowledge_feedback db1 emp fid t2 = .ok db2
          ∧ ∃ r2, db2.feedbacks.find? (fun f => f.id == fid) = some r2
              ∧ r2.acknowledged_at = some t2 ∧ t1 < t2 := by
  obtain ⟨hu, hr, hfb, fb, hfind, hemp⟩ := acknowledge_feedback_ok h1
  have hfind1 : db1.feedbacks.find? (fun f => f.id == fid) =
      some { fb with acknowledged := true, acknowledged_at := some t1 } := by
    rw [hfb]
    rw [@find?_updateFirst Feedback (fun f => f.id == fid)
      (fun f => { f with acknowledged := true, acknowledged_at := some t1 })
      db.feedbacks (fun x => rfl), hfind]
    rfl
  refine ⟨{ fb with acknowledged := true, acknowledged_at := some t1 },
    hfind1, hemp, rfl, rfl, ?_, ?_⟩
  · intro hne
    simp only [acknowledge_feedback, hfind1]
    rw [if_pos (fun he => hne he.symm)]
  · refine ⟨{ db1 with
        feedbacks := updateFirst (fun f => f.id == fid)
          (fun f => { f with acknowledged := true, acknowledged_at := some t2 })
          db1.feedbacks }, ?_, ?_⟩
    · simp only [acknowledge_feedback, hfind1]
      rw [if_neg (by simp [hemp])]
    · refine ⟨{ fb with acknowledged := true, acknowledged_at := some t2 }, ?_, rfl, hlt⟩
      show List.find? (fun f => f.id == fid)
        (updateFirst (fun f => f.id == fid)
          (fun f => { f with acknowledged := true, acknowledged_at := some t2 })
          db1.feedbacks) = _
      rw [@find?_updateFirst Feedback (fun f => f.id == fid)
        (fun f => { f with acknowledged := true, acknowledged_at := some t2 })
        db1.feedbacks (fun x => rfl), hfind1]
      rfl

/-- C4 counterexample: in a store satisfying the org invariant, the
update-self-profile handler lets employee 3 set manager_id to user 2, who is
an employee, so the resulting store violates the invariant: the claim that
every operation preserves it is false. -/
theorem c4_counterexample :
    UserInv dbU ∧ ¬ UserInv (update_current_user dbU empW2 uuBad).1 := by
  constructor
  · decide
  · decide

theorem userInv_of_users_eq {db db' : DB} (h : db'.users = db.users)
    (hinv : UserInv db) : UserInv db' := by
  intro u hu
  rw [h] at hu
  have hok := hinv u hu
  unfold managerRefOk at hok ⊢
  rw [h]
  exact hok

/-- C4 (amended): every operation other than update-self-profile leaves the
users table unchanged and hence preserves the invariant that a set
manager_id references a manager; update-self-profile, however, applies the
caller-supplied manager_id verbatim with no check on the referenced user's
role, so the invariant is not enforced there and can be violated. -/
theorem c4_manager_ref_amended (db : DB) :
    (∀ (c : User) (d : FeedbackCreate) (i t : Nat) (db' : DB) (f : Feedback),
        create_feedback db c d i t = .ok (db', f) → UserInv db → UserInv db')
  ∧ (∀ (c : User) (fid : Nat) (u : FeedbackUpdate) (db' : DB),
        update_feedback db c fid u = .ok db' → UserInv db → UserInv db')
  ∧ (∀ (c : User) (fid t : Nat) (db' : DB),
        acknowledge_feedback db c fid t = .ok db' → UserInv db → UserInv db')
  ∧ (∀ (c : User) (msg : Option String) (i t : Nat) (db' : DB)
        (r : FeedbackRequest),
        create_feedback_request db c msg i t = .ok (db', r) →
        UserInv db → UserInv db')
  ∧ (∀ (c : User) (rid t : Nat) (db' : DB),
        complete_feedback_request db c rid t = .ok db' → UserInv db → UserInv db')
  ∧ (∀ (c : User) (rid : Nat) (db' : DB),
        cancel_feedback_request db c rid = .ok db' → UserInv db → UserInv db')
  ∧ (∀ (c : User) (u : UserUpdate) (m : Nat), u.manager_id = some m →
        ((update_current_user db c u).2).manager_id = some m) := by
  refine ⟨?_, ?_, ?_, ?_, ?_, ?_, ?_⟩
  · intro c d i t db' f h hinv
    exact userInv_of_users_eq (create_feedback_ok h).1 hinv
  · intro c fid u db' h hinv
    exact userInv_of_users_eq (update_feedback_ok h).1 hinv
  · intro c fid t db' h hinv
    exact userInv_of_users_eq (acknowledge_feedback_ok h).1 hinv
  · intro c msg i t db' r h hinv
    exact userInv_of_users_eq (create_feedback_request_ok h).1 hinv
  · intro c rid t db' h hinv
    exact userInv_of_users_eq (complete_feedback_request_ok h).1 hinv
  · intro c rid db' h hinv
    exact userInv_of_users_eq (cancel_feedback_request_ok h).1 hinv
  · intro c u m hm
    simp [update_current_user, applyUserUpdate, hm]

/-! Concrete witnesses instantiating the claim theorems. -/

/-- Witness for C1: the store reached by one concrete create step from a
store satisfying the invariant satisfies it as well. -/
theorem c1_ack_invariant_witness : FbInv dbC1 :=
  c1_ack_invariant dbW dbC1 (by decide)
    (Relation.ReflTransGen.single
      (Step.createFb dbW dbC1 mgrW fcW 1 0 fbC1 rfl))

/-- Witness for C2: an employee caller is refused with Forbidden. -/
theorem c2_create_feedback_access_witness :
    create_feedback dbW empW fcW 3 4 = .error .forbidden :=
  (c2_create_feedback_access dbW empW fcW 3 4).2.1 (by decide)

/-- Witness for C3: with one concrete pending request in store, a duplicate
create by the same employee yields BadRequest. -/
theorem c3_pending_uniqueness_witness :
    create_feedback_request dbR empW none 7 9 = .error .badRequest :=
  (c3_pending_uniqueness dbR dbR (by decide)
      Relation.ReflTransGen.refl).2.1 empW 1 none 7 9 rfl rfl
    ⟨reqW, by decide, by decide⟩

/-- Witness for C4 (amended): the self-update applies the supplied
manager_id verbatim even though user 2 is an employee. -/
theorem c4_manager_ref_amended_witness :
    ((update_current_user dbU empW2 uuBad).2).manager_id = some 2 :=
  (c4_manager_ref_amended dbU).2.2.2.2.2.2 empW2 uuBad 2 rfl

/-- Witness for C5: the manager-scope team count equals the direct-report
count on a concrete store. -/
theorem c5_dashboard_witness :
    (get_dashboard_data dbW mgrW).stats.team_members_count =
      (dbW.users.filter (fun u => u.manager_id == some mgrW.id)).length :=
  (c5_dashboard dbW mgrW).2.2.2.2.2.2.1 rfl

/-- Witness for C6: the target manager completes the concrete pending
request; status and completed_at are set. -/
theorem c6_complete_request_witness :
    ∃ db', complete_feedback_request dbR mgrW 1 5 = .ok db'
      ∧ db'.requests.find? (fun q => q.id == 1) =
          some { reqW with status := "completed", completed_at := some 5 }
      ∧ db'.users = dbR.users ∧ db'.feedbacks = dbR.feedbacks :=
  (c6_complete_request dbR mgrW 1 5).2.2 reqW (by decide) rfl

/-- Witness for C7: the requesting employee cancels the concrete request;
only status changes. -/
theorem c7_cancel_request_witness :
    ∃ db', cancel_feedback_request dbR empW 1 = .ok db'
      ∧ db'.requests.find? (fun q => q.id == 1) =
          some { reqW with status := "cancelled" }
      ∧ ({ reqW with status := "cancelled" } : FeedbackRequest).completed_at =
          reqW.completed_at
      ∧ ({ reqW with status := "cancelled" } : FeedbackRequest).id = reqW.id
      ∧ ({ reqW with status := "cancelled" } : FeedbackRequest).employee_id =
          reqW.employee_id
      ∧ ({ reqW with status := "cancelled" } : FeedbackRequest).manager_id =
          reqW.manager_id
      ∧ ({ reqW with status := "cancelled" } : FeedbackRequest).message =
          reqW.message
      ∧ ({ reqW with status := "cancelled" } : FeedbackRequest).created_at =
          reqW.created_at
      ∧ db'.users = dbR.users ∧ db'.feedbacks = dbR.feedbacks :=
  (c7_cancel_request dbR empW 1).2.2.2 reqW (by decide) (Or.inl rfl)

/-- Witness for C8: employee 2 acknowledges feedback 1 at time 5; manager 1
is then refused, while employee 2 re-acknowledges at time 9. -/
theorem c8_reacknowledge_witness :
    ∃ r1, dbA1.feedbacks.find? (fun f => f.id == 1) = some r1
      ∧ r1.employee_id = empW.id ∧ r1.acknowledged = true
      ∧ r1.acknowledged_at = some 5
      ∧ (mgrW.id ≠ r1.employee_id →
          acknowledge_feedback dbA1 mgrW 1 9 = .error .forbidden)
      ∧ ∃ db2, acknowledge_feedback dbA1 empW 1 9 = .ok db2
          ∧ ∃ r2, db2.feedbacks.find? (fun f => f.id == 1) = some r2
              ∧ r2.acknowledged_at = some 9 ∧ 5 < 9 :=
  c8_reacknowledge dbA dbA1 empW mgrW 1 5 9 rfl (by decide)

/-- Witness for C9: the authoring manager updates only `strengths` on the
concrete record; all other fields survive. -/
theorem c9_update_feedback_witness :
    ∃ db', update_feedback dbA mgrW 1 fuW = .ok db'
      ∧ db'.feedbacks.find? (fun x => x.id == 1) =
          some (applyFeedbackUpdate fuW fbA)
      ∧ (applyFeedbackUpdate fuW fbA).acknowledged = fbA.acknowledged
      ∧ (applyFeedbackUpdate fuW fbA).acknowledged_at = fbA.acknowledged_at
      ∧ (applyFeedbackUpdate fuW fbA).manager_id = fbA.manager_id
      ∧ (applyFeedbackUpdate fuW fbA).employee_id = fbA.employee_id
      ∧ (fuW.strengths = none →
          (applyFeedbackUpdate fuW fbA).strengths = fbA.strengths)
      ∧ (∀ s, fuW.strengths = some s →
          (applyFeedbackUpdate fuW fbA).strengths = s)
      ∧ (fuW.areas_to_improve = none →
          (applyFeedbackUpdate fuW fbA).areas_to_improve = fbA.areas_to_improve)
      ∧ (∀ s, fuW.areas_to_improve = some s →
          (applyFeedbackUpdate fuW fbA).areas_to_improve = s)
      ∧ (fuW.overall_sentiment = none →
          (applyFeedbackUpdate fuW fbA).overall_sentiment = fbA.overall_sentiment)
      ∧ (∀ s, fuW.overall_sentiment = some s →
          (applyFeedbackUpdate fuW fbA).overall_sentiment = s)
      ∧ db'.users = dbA.users ∧ db'.requests = dbA.requests :=
  (c9_update_feedback dbA mgrW 1 fuW).2.2 fbA (by decide) rfl

/-- Witness for C10: the concrete admin's reads take the employee branch
and its dashboard team count is 0. -/
theorem c10_admin_reads_witness :
    get_feedback dbW admW = dbW.feedbacks.filter (fun f => f.employee_id == admW.id)
  ∧ get_feedback_requests dbW admW =
      dbW.requests.filter (fun r => r.employee_id == admW.id)
  ∧ (get_dashboard_data dbW admW).stats.team_members_count = 0 :=
  c10_admin_reads dbW admW rfl

end FeedbackApp
